import Mathlib

/-!
Verification of the git-helper CLI (src/bin/git-helper.js) against its
natural-language specification.

Modelling conventions of this shallow embedding:
* JavaScript strings that are inspected character by character are
  modelled as `List Char`; configuration keys and values are `String`.
* JSON configuration objects are modelled as association lists of
  string keys and string values; read and assignment of a member act
  on the own keys of the object, while the truthiness checks on
  `AVAILABLE_MODELS[m]` also account for the member names every plain
  object inherits from Object.prototype.
* The external world (file system, git binary, network) is passed in
  explicitly: file contents as a `FileState`, results of shelled-out
  commands and of the network call as oracle parameters.
* Fallible paths return `Except`/`Option` or a success flag, matching
  the thrown-and-caught JavaScript errors.
-/

/-! ## Commit-message sanitization (`sanitizeCommitMessage`) -/

/-- One global single-character regex replacement, as performed by
`message.replace(/x/g, rep)` for a one-character pattern `x`. -/
def replaceAll (t : Char) (rep : List Char) : List Char → List Char
  | [] => []
  | c :: rest => (if c = t then rep else [c]) ++ replaceAll t rep rest

/-- `sanitizeCommitMessage` from src/bin/git-helper.js lines 184-190:
replaces every double quote, then every backtick, then every dollar
sign by the same character prefixed with a backslash. -/
def sanitizeCommitMessage (m : List Char) : List Char :=
  replaceAll '$' ['\\', '$'] (replaceAll '`' ['\\', '`'] (replaceAll '"' ['\\', '"'] m))

/-- Per-character effect of the three chained replacements: the three
replaced characters gain a backslash, every other character is kept. -/
def escChar (c : Char) : List Char :=
  if c = '"' ∨ c = '`' ∨ c = '$' then ['\\', c] else [c]

theorem replaceAll_append (t : Char) (rep : List Char) (a b : List Char) :
    replaceAll t rep (a ++ b) = replaceAll t rep a ++ replaceAll t rep b := by
  induction a with
  | nil => rfl
  | cons c rest ih => simp [replaceAll, ih, List.append_assoc]

theorem sanitize_cons (c : Char) (rest : List Char) :
    sanitizeCommitMessage (c :: rest) = escChar c ++ sanitizeCommitMessage rest := by
  unfold sanitizeCommitMessage
  have h1 : replaceAll '"' ['\\', '"'] (c :: rest) =
      (if c = '"' then ['\\', '"'] else [c]) ++ replaceAll '"' ['\\', '"'] rest := rfl
  rw [h1, replaceAll_append, replaceAll_append]
  congr 1
  by_cases hq : c = '"'
  · subst hq; rfl
  · by_cases hb : c = '`'
    · subst hb; rfl
    · by_cases hd : c = '$'
      · subst hd; rfl
      · simp [escChar, replaceAll, hq, hb, hd]

/-- Scanner for the POSIX treatment of the inside of a double-quoted
shell word: a backslash escapes a following dollar sign, backtick,
double quote or backslash; an unescaped double quote terminates the
word. `afterBackslash` records that the previous character was an
unconsumed backslash. Returns `true` when some character of the input
terminates the surrounding double-quoted argument early. -/
def dqScan (afterBackslash : Bool) : List Char → Bool
  | [] => false
  | c :: rest =>
    if afterBackslash then dqScan false rest
    else if c = '"' then true
    else if c = '\\' then dqScan true rest
    else dqScan false rest

/-- A character sequence, placed between double quotes in a shell
command, terminates the quoted argument early. -/
def dqTerminatesEarly (s : List Char) : Bool := dqScan false s

/-- Scan checking that every double quote is immediately preceded by a
backslash character; `prev` is the previous character. -/
def quotesPrecededAux (prev : Char) : List Char → Bool
  | [] => true
  | c :: rest => ((c != '"') || (prev == '\\')) && quotesPrecededAux c rest

/-- Every double quote of the sequence is immediately preceded by a
backslash character (the first character is not a double quote). -/
def quotesPreceded (s : List Char) : Bool := quotesPrecededAux 'A' s

theorem quotesPrecededAux_sanitize (m : List Char) :
    ∀ prev, quotesPrecededAux prev (sanitizeCommitMessage m) = true := by
  induction m with
  | nil => intro prev; rfl
  | cons c rest ih =>
    intro prev
    rw [sanitize_cons]
    by_cases hs : c = '"' ∨ c = '`' ∨ c = '$'
    · rcases hs with h | h | h <;> subst h <;> exact ih _
    · have he : escChar c = [c] := by simp [escChar, hs]
      rw [he]
      have h1 : ¬ c = '"' := fun h => hs (Or.inl h)
      have hcne : (c != '"') = true := by
        simp [bne_iff_ne]
        exact h1
      simp only [List.cons_append, List.nil_append, quotesPrecededAux, hcne,
        Bool.true_or, Bool.true_and]
      exact ih c

theorem dqScan_sanitize (m : List Char) (hm : '\\' ∉ m) :
    dqScan false (sanitizeCommitMessage m) = false := by
  induction m with
  | nil => rfl
  | cons c rest ih =>
    have hrest : '\\' ∉ rest := fun h => hm (List.mem_cons_of_mem _ h)
    have hc : ¬ c = '\\' := fun h => hm (h ▸ List.mem_cons_self c rest)
    rw [sanitize_cons]
    by_cases hs : c = '"' ∨ c = '`' ∨ c = '$'
    · rcases hs with h | h | h <;> subst h <;> exact ih hrest
    · have he : escChar c = [c] := by simp [escChar, hs]
      rw [he]
      have h1 : ¬ c = '"' := fun h => hs (Or.inl h)
      simp only [List.cons_append, List.nil_append, dqScan, if_neg h1, if_neg hc,
        if_false, Bool.false_eq_true]
      exact ih hrest

/-- C1 (amended): after sanitization every double quote in the message
is immediately preceded by a backslash character, and for any message
that contains no backslash the sanitized form, placed between double
quotes in the `git commit -m` command, never terminates the quoted
shell argument early. (The claim fails for messages that already
contain a backslash, see the counterexample.) -/
theorem C1_sanitize_escaping :
    (∀ m : List Char, quotesPreceded (sanitizeCommitMessage m) = true) ∧
    (∀ m : List Char, '\\' ∉ m → dqTerminatesEarly (sanitizeCommitMessage m) = false) :=
  ⟨fun m => quotesPrecededAux_sanitize m 'A', fun m hm => dqScan_sanitize m hm⟩

/-- Witness for C1 (amended) at the concrete message a-quote. -/
theorem C1_sanitize_escaping_witness :
    quotesPreceded (sanitizeCommitMessage ['a', '"']) = true ∧
    dqTerminatesEarly (sanitizeCommitMessage ['a', '"']) = false :=
  ⟨C1_sanitize_escaping.1 ['a', '"'], C1_sanitize_escaping.2 ['a', '"'] (by decide)⟩

/-- C1 counterexample: the two-character message backslash,
double-quote contains a double quote, yet its sanitized form (backslash
backslash quote) still terminates the surrounding double-quoted shell
argument early, because `sanitizeCommitMessage` does not escape
backslashes: the doubled backslash collapses to a literal backslash and
leaves the final quote unescaped. -/
theorem C1_counterexample :
    '"' ∈ ['\\', '"'] ∧
    dqTerminatesEarly (sanitizeCommitMessage ['\\', '"']) = true := by
  decide

/-! ## Configuration model -/

/-- A JSON configuration object, modelled as an association list of its
own string-valued members, in insertion order. -/
abbrev ConfigMap := List (String × String)

/-- Member lookup `obj[k]` on a JSON object. -/
def getVal (k : String) : ConfigMap → Option String
  | [] => none
  | (k2, v) :: rest => if k2 = k then some v else getVal k rest

/-- Member assignment `obj.k = v` on a JSON object: replaces the value
in place when the key is present, appends the pair otherwise. -/
def setVal (k v : String) : ConfigMap → ConfigMap
  | [] => [(k, v)]
  | (k2, v2) :: rest => if k2 = k then (k, v) :: rest else (k2, v2) :: setVal k v rest

theorem getVal_setVal_same (k v : String) : ∀ m, getVal k (setVal k v m) = some v := by
  intro m
  induction m with
  | nil => simp [setVal, getVal]
  | cons p rest ih =>
    obtain ⟨k2, v2⟩ := p
    by_cases h : k2 = k
    · simp [setVal, getVal, h]
    · simp [setVal, getVal, h, ih]

theorem getVal_setVal_other (k v k2 : String) (h : k2 ≠ k) :
    ∀ m, getVal k2 (setVal k v m) = getVal k2 m := by
  have hk : ¬ k = k2 := fun hh => h hh.symm
  intro m
  induction m with
  | nil => simp [setVal, getVal, hk]
  | cons p rest ih =>
    obtain ⟨k3, v3⟩ := p
    by_cases h3 : k3 = k
    · subst h3
      simp [setVal, getVal, hk]
    · simp [setVal, getVal, h3, ih]

/-- State of a configuration file on disk: absent, present but failing
to read or parse, or present with a parsed JSON object. -/
inductive FileState where
  | missing
  | corrupt
  | valid (m : ConfigMap)
deriving DecidableEq

/-- `loadConfig` (lines 52-63): returns the parsed project file, and
the empty record when the file is absent or reading/parsing throws. -/
def loadConfig : FileState → ConfigMap
  | .valid m => m
  | _ => []

/-- `existsSync` on a configuration file. -/
def fileExists : FileState → Bool
  | .missing => false
  | _ => true

/-- JavaScript truthiness filter for an optional string: the empty
string is falsy, every other string is truthy. -/
def jsTruthy : Option String → Option String
  | some s => if s = "" then none else some s
  | none => none

/-- `AVAILABLE_MODELS` (lines 14-32), as the association list of model
identifier and description. -/
def AVAILABLE_MODELS : ConfigMap := [
  ("llama-3.3-70b-versatile", "Llama 3.3 70B - Best overall performance (Recommended)"),
  ("llama-3.1-70b-instruct", "Llama 3.1 70B - Great for complex tasks"),
  ("llama-3.1-8b-instruct", "Llama 3.1 8B - Fast and efficient"),
  ("deepseek-r1-distill-llama-70b", "DeepSeek R1 70B - Advanced reasoning"),
  ("deepseek-r1-distill-qwen-32b", "DeepSeek R1 32B - Good reasoning, faster"),
  ("qwen-2.5-coder-32b", "Qwen Coder 32B - Optimized for code understanding"),
  ("qwen-2.5-32b", "Qwen 2.5 32B - Well-rounded performance"),
  ("mixtral-8x7b-32768", "Mixtral 8x7B - Good balance of speed/quality"),
  ("llama-3.2-90b-text-preview", "Llama 3.2 90B - Large context, preview"),
  ("llama-3.2-11b-text-preview", "Llama 3.2 11B - Medium size, preview"),
  ("llama-3.2-3b-preview", "Llama 3.2 3B - Lightweight, preview"),
  ("llama-3.2-1b-preview", "Llama 3.2 1B - Ultra-fast, preview"),
  ("gemma2-9b-it", "Gemma2 9B - Google model"),
  ("qwen-qwq-32b", "Qwen QwQ 32B - Question-answering focused"),
  ("llama3-70b-8192", "Llama3 70B - Legacy, reliable"),
  ("llama3-8b-8192", "Llama3 8B - Legacy, fast")]

/-- `DEFAULT_MODEL` (line 34). -/
def DEFAULT_MODEL : String := "llama-3.3-70b-versatile"

/-- Own property names of `Object.prototype`, inherited by every plain
object literal; each lookup result (a built-in function, or the
prototype object itself for the last entry) is truthy. -/
def objectProtoProps : List String := [
  "constructor", "hasOwnProperty", "isPrototypeOf", "propertyIsEnumerable",
  "toLocaleString", "toString", "valueOf", "__defineGetter__",
  "__defineSetter__", "__lookupGetter__", "__lookupSetter__", "__proto__"]

/-- Truthiness of the member lookup `AVAILABLE_MODELS[m]` as checked at
lines 141, 153, 243 and 256: JavaScript property lookup traverses the
prototype chain, so the check passes for an own key of the table (all
descriptions are non-empty strings) and also for every member name
inherited from `Object.prototype`. -/
def isAvailableModel (m : String) : Bool :=
  (getVal m AVAILABLE_MODELS).isSome || objectProtoProps.contains m

/-- `getGroqApiKey` (lines 108-137): the environment variable when
truthy, else the truthy project-file key, else the truthy global-file
key when the global file exists and parses (errors there are ignored),
else no credential. -/
def getGroqApiKey (env : Option String) (proj glob : FileState) : Option String :=
  match jsTruthy env with
  | some k => some k
  | none =>
    match jsTruthy (getVal "groqApiKey" (loadConfig proj)) with
    | some k => some k
    | none =>
      match glob with
      | .valid g => jsTruthy (getVal "groqApiKey" g)
      | _ => none

/-- Global-file part of `getSelectedModel` (lines 145-161): the truthy
global model when the global file exists, parses and the model is in
the table, else the default model; read or parse errors are ignored. -/
def modelFromGlobal (glob : FileState) : String :=
  match glob with
  | .valid g =>
    match jsTruthy (getVal "model" g) with
    | some m => if isAvailableModel m then m else DEFAULT_MODEL
    | none => DEFAULT_MODEL
  | _ => DEFAULT_MODEL

/-- `getSelectedModel` (lines 139-162): the truthy project model when
it is a key of the table, else the global fallback. -/
def getSelectedModel (proj glob : FileState) : String :=
  match jsTruthy (getVal "model" (loadConfig proj)) with
  | some m => if isAvailableModel m then m else modelFromGlobal glob
  | none => modelFromGlobal glob

/-! ## Configuration writes and the gitignore side effect -/

/-- Combined on-disk state touched by the config command: the project
configuration file, the global configuration file, and the .gitignore
file of the working directory (`none` when absent). -/
structure ConfigState where
  projFile : FileState
  globFile : FileState
  gitignore : Option (List Char)
deriving DecidableEq

/-- The first list is an initial segment of the second. -/
def isPrefixL : List Char → List Char → Bool
  | [], _ => true
  | _ :: _, [] => false
  | a :: as, b :: bs => (a == b) && isPrefixL as bs

/-- Substring containment, as in the JavaScript `includes` method. -/
def includesL (needle : List Char) : List Char → Bool
  | [] => isPrefixL needle []
  | c :: t => isPrefixL needle (c :: t) || includesL needle t

/-- Name of the project configuration file. -/
def configFileName : List Char := ".git-helper-config.json".toList

/-- Marker checked before inserting the gitignore comment. -/
def gitHelperMark : List Char := "git-helper".toList

/-- Comment block inserted in front of the gitignore entry. -/
def gitignoreComment : List Char := "\n# git-helper configuration\n".toList

/-- `addToGitignore` (lines 77-106), as a transformation of the
.gitignore content (`none` when the file is absent): when the content
does not already contain the configuration file name, append a
separating newline (when the content is non-empty and does not end
with a newline), the comment block (unless a git-helper marker is
already present), the file name and a final newline; otherwise leave
the content unchanged. -/
def addToGitignore (old : Option (List Char)) : List Char :=
  let content := old.getD []
  if includesL configFileName content then content
  else
    let newLine := if !content.isEmpty && !(content.getLast? == some '\n')
      then ['\n'] else []
    let comment := if includesL gitHelperMark content then [] else gitignoreComment
    content ++ (newLine ++ (comment ++ (configFileName ++ ['\n'])))

/-- `saveConfig` (lines 65-75): writes the project configuration file
(the oracle `writeOk` tells whether `writeFileSync` succeeds), then on
success calls `addToGitignore` and returns `true`; on a write failure
it reports failure by returning `false` and changes nothing. The
oracle `gitignoreOk` tells whether the read/write inside
`addToGitignore` succeeds: its failure is caught silently (lines
102-105), leaving .gitignore unchanged while `saveConfig` still
returns `true`. -/
def saveConfig (writeOk gitignoreOk : Bool) (cfg : ConfigMap) (st : ConfigState) :
    Bool × ConfigState :=
  if writeOk then
    (true, { st with projFile := .valid cfg,
                     gitignore := if gitignoreOk then some (addToGitignore st.gitignore)
                       else st.gitignore })
  else (false, st)

/-- Read of the global file performed inside the set-global branches
(lines 262-270 and 288-296): `existsSync` then `JSON.parse`, with no
local error handling, so a corrupt file makes the whole branch throw
(`none`); an absent file is read as the empty record. -/
def readGlobalForSet : FileState → Option ConfigMap
  | .corrupt => none
  | .missing => some []
  | .valid m => some m

/-- The mutating variants of the `config` command. -/
inductive ConfigCmd where
  | setModel (m : String)
  | setGlobalModel (m : String)
  | setKey (k : String)
  | setGlobalKey (k : String)
  | reset
  | resetGlobal

/-- The `config` command action (lines 225-407), restricted to its
mutating branches. An empty option value is falsy in the dispatch, so
the branch is skipped; `--set-model` and `--set-global-model` reject
identifiers outside `AVAILABLE_MODELS` without writing; the global set
branches abort without writing when the existing global file fails to
parse; reset branches overwrite an existing file with the empty
record. `projWriteOk`/`globWriteOk` are oracles for the success of the
underlying file writes (a failed write is caught and reported, leaving
the state unchanged); `gitignoreOk` is the oracle for the gitignore
access performed by `saveConfig`. -/
def configAction (cmd : ConfigCmd) (projWriteOk globWriteOk gitignoreOk : Bool)
    (st : ConfigState) : ConfigState :=
  match cmd with
  | .setModel m =>
    if m = "" then st
    else if !(isAvailableModel m) then st
    else (saveConfig projWriteOk gitignoreOk (setVal "model" m (loadConfig st.projFile)) st).2
  | .setGlobalModel m =>
    if m = "" then st
    else if !(isAvailableModel m) then st
    else
      match readGlobalForSet st.globFile with
      | none => st
      | some g =>
        if globWriteOk then { st with globFile := .valid (setVal "model" m g) } else st
  | .setKey k =>
    if k = "" then st
    else (saveConfig projWriteOk gitignoreOk
      (setVal "groqApiKey" k (loadConfig st.projFile)) st).2
  | .setGlobalKey k =>
    if k = "" then st
    else
      match readGlobalForSet st.globFile with
      | none => st
      | some g =>
        if globWriteOk then { st with globFile := .valid (setVal "groqApiKey" k g) } else st
  | .reset =>
    if fileExists st.projFile then
      (if projWriteOk then { st with projFile := .valid [] } else st)
    else st
  | .resetGlobal =>
    if fileExists st.globFile then
      (if globWriteOk then { st with globFile := .valid [] } else st)
    else st

/-! ## AI commit-message generation (`generateAICommitMessage`) -/

/-- Characters removed by the JavaScript `trim` method (the ASCII
whitespace subset, which is all the code relies on). -/
def jsWs (c : Char) : Bool :=
  (c == ' ') || (c == '\t') || (c == '\n') || (c == '\r') || (c == '\x0B') || (c == '\x0C')

/-- The string trims to the empty string, i.e. `!s.trim()` holds. -/
def isBlank (s : List Char) : Bool := s.all jsWs

/-- The JavaScript `trim` method: drops leading and trailing
whitespace. -/
def jsTrim (s : List Char) : List Char :=
  ((s.dropWhile jsWs).reverse.dropWhile jsWs).reverse

/-- Distinct failure causes of `generateAICommitMessage`, one per
throw site; `aiGenerationFailed` is the wrapping applied by the
final catch-all (line 709) to any plain error thrown inside the try
block. -/
inductive GenError where
  | noChangesInRepo
  | stageFirst
  | nothingToAnalyze
  | noAIResponse
deriving DecidableEq

/-- Result of `generateAICommitMessage`: the trimmed message, or the
wrapped failure cause. -/
inductive GenResult where
  | ok (msg : List Char)
  | aiGenerationFailed (inner : GenError)
deriving DecidableEq

/-- Outputs of the git commands queried by `generateAICommitMessage`
(lines 620-641): `git status --porcelain`, the staged diff and status,
the unstaged diff and status, and the untracked-file listing. -/
structure GitView where
  allChanges : List Char
  stagedDiff : List Char
  stagedStatus : List Char
  unstagedDiff : List Char
  unstagedStatus : List Char
  untracked : List Char

/-- Remote-completion step (lines 652-697) for a chosen status and
diff: the oracle `ai` receives the status listing and the diff capped
at 4000 characters and yields the extracted message content (`none`
when absent); an absent or blank content is the no-response failure,
which the catch-all wraps. -/
def runAIRequest (ai : List Char → List Char → Option (List Char))
    (status diff : List Char) : GenResult :=
  match ai status (diff.take 4000) with
  | none => .aiGenerationFailed .noAIResponse
  | some content =>
    let msg := jsTrim content
    if msg.isEmpty then .aiGenerationFailed .noAIResponse else .ok msg

/-- `generateAICommitMessage` (lines 617-712): fail when the porcelain
status is blank; otherwise use the staged diff and status when the
staged diff is non-blank, else the unstaged diff and status when
non-blank, else fail with the stage-first cause when untracked files
are present and with the nothing-to-analyze cause otherwise. Every
failure is wrapped by the final catch-all. -/
def generateAICommitMessage (ai : List Char → List Char → Option (List Char))
    (g : GitView) : GenResult :=
  if isBlank g.allChanges then .aiGenerationFailed .noChangesInRepo
  else if !(isBlank g.stagedDiff) then runAIRequest ai g.stagedStatus g.stagedDiff
  else if !(isBlank g.unstagedDiff) then runAIRequest ai g.unstagedStatus g.unstagedDiff
  else if !(isBlank g.untracked) then .aiGenerationFailed .stageFirst
  else .aiGenerationFailed .nothingToAnalyze

/-! ## The push pipeline -/

/-- External conditions seen by the `push` action: repository check,
porcelain status check, trimmed current-branch query (`none` when the
query fails), and for each pipeline step the error message when the
shelled-out command fails (`none` when it succeeds). -/
structure PushEnv where
  isRepo : Bool
  hasChanges : Bool
  currentBranch : Option (List Char)
  stageErr : Option (List Char)
  commitErr : Option (List Char)
  pushErr : Option (List Char)

/-- Final report of the `push` action. -/
inductive PushResult where
  | notARepo
  | noChanges
  | missingMessage
  | dryRunShown
  | stageFailed (e : List Char)
  | commitFailed (e : List Char)
  | pushFailed (e : List Char)
  | success
deriving DecidableEq

/-- Observable outcome of one `push` invocation: the shell commands
actually executed, in order; the commands printed by the dry-run
branch; and the report. -/
structure PushOutcome where
  executed : List (List Char)
  printed : List (List Char)
  result : PushResult
deriving DecidableEq

/-- The stage-all command. -/
def addCmd : List Char := "git add .".toList

/-- The commit command with the sanitized message interpolated between
double quotes. -/
def commitCmd (sanitized : List Char) : List Char :=
  "git commit -m ".toList ++ ['"'] ++ sanitized ++ ['"']

/-- The push command for the resolved branch. -/
def pushCmd (branch : List Char) : List Char := "git push origin ".toList ++ branch

/-- Branch resolution (lines 430-439): a truthy `--branch` option wins;
otherwise the trimmed current branch, or the literal main when that
query fails. -/
def resolveBranch (optBranch : Option (List Char)) (current : Option (List Char)) : List Char :=
  match optBranch with
  | some b => if b.isEmpty then current.getD "main".toList else b
  | none => current.getD "main".toList

/-- The `push` action (lines 417-526) with the commit message already
resolved (a manual argument or the AI-generated one): validate the
repository and pending changes, resolve the branch, require a truthy
message, then either print the three commands (dry run) or execute
stage, commit and push in order, stopping at the first failing step
and reporting its error. -/
def pushAction (env : PushEnv) (message : Option (List Char))
    (optBranch : Option (List Char)) (dryRun : Bool) : PushOutcome :=
  if !env.isRepo then ⟨[], [], .notARepo⟩
  else if !env.hasChanges then ⟨[], [], .noChanges⟩
  else
    let branch := resolveBranch optBranch env.currentBranch
    match message with
    | none => ⟨[], [], .missingMessage⟩
    | some msg =>
      if msg.isEmpty then ⟨[], [], .missingMessage⟩
      else
        let s := sanitizeCommitMessage msg
        if dryRun then ⟨[], [addCmd, commitCmd s, pushCmd branch], .dryRunShown⟩
        else
          match env.stageErr with
          | some e => ⟨[addCmd], [], .stageFailed e⟩
          | none =>
            match env.commitErr with
            | some e => ⟨[addCmd, commitCmd s], [], .commitFailed e⟩
            | none =>
              match env.pushErr with
              | some e => ⟨[addCmd, commitCmd s, pushCmd branch], [], .pushFailed e⟩
              | none => ⟨[addCmd, commitCmd s, pushCmd branch], [], .success⟩

/-! ## Claim theorems -/

/-- C2: effective-configuration resolution checks the sources in
order. For the credential: truthy environment variable first (taking
precedence over any file), then the project file, then the global
file, and no credential when every source misses (no default
credential). For the model identifier: project file, then global
file, then the hardcoded default model. -/
theorem C2_resolution_order (env : Option String) (proj glob : FileState) :
    (∀ k, env = some k → k ≠ "" → getGroqApiKey env proj glob = some k) ∧
    (jsTruthy env = none →
      ∀ k, jsTruthy (getVal "groqApiKey" (loadConfig proj)) = some k →
      getGroqApiKey env proj glob = some k) ∧
    (jsTruthy env = none →
      jsTruthy (getVal "groqApiKey" (loadConfig proj)) = none →
      ∀ g k, glob = .valid g → jsTruthy (getVal "groqApiKey" g) = some k →
      getGroqApiKey env proj glob = some k) ∧
    (jsTruthy env = none →
      jsTruthy (getVal "groqApiKey" (loadConfig proj)) = none →
      (∀ g, glob = .valid g → jsTruthy (getVal "groqApiKey" g) = none) →
      getGroqApiKey env proj glob = none) ∧
    (∀ m, jsTruthy (getVal "model" (loadConfig proj)) = some m →
      isAvailableModel m = true → getSelectedModel proj glob = m) ∧
    ((∀ m, jsTruthy (getVal "model" (loadConfig proj)) = some m →
        isAvailableModel m = false) →
      ∀ g m, glob = .valid g → jsTruthy (getVal "model" g) = some m →
      isAvailableModel m = true → getSelectedModel proj glob = m) ∧
    ((∀ m, jsTruthy (getVal "model" (loadConfig proj)) = some m →
        isAvailableModel m = false) →
      (∀ g m, glob = .valid g → jsTruthy (getVal "model" g) = some m →
        isAvailableModel m = false) →
      getSelectedModel proj glob = DEFAULT_MODEL) := by
  refine ⟨?_, ?_, ?_, ?_, ?_, ?_, ?_⟩
  · intro k hk hne
    subst hk
    simp [getGroqApiKey, jsTruthy, hne]
  · intro he k hp
    simp [getGroqApiKey, he, hp]
  · intro he hp g k hg hk
    subst hg
    simp [getGroqApiKey, he, hp, hk]
  · intro he hp hg
    cases hglob : glob with
    | missing => simp [getGroqApiKey, he, hp]
    | corrupt => simp [getGroqApiKey, he, hp]
    | valid g => simp [getGroqApiKey, he, hp, hg g hglob]
  · intro m hm hav
    simp [getSelectedModel, hm, hav]
  · intro hp g m hg hm hav
    subst hg
    cases hq : jsTruthy (getVal "model" (loadConfig proj)) with
    | none => simp [getSelectedModel, hq, modelFromGlobal, hm, hav]
    | some x =>
      have hx : isAvailableModel x = false := hp x hq
      simp [getSelectedModel, hq, hx, modelFromGlobal, hm, hav]
  · intro hp hg
    have hmg : modelFromGlobal glob = DEFAULT_MODEL := by
      cases hglob : glob with
      | missing => rfl
      | corrupt => rfl
      | valid g =>
        cases hq : jsTruthy (getVal "model" g) with
        | none => simp [modelFromGlobal, hq]
        | some m =>
          have hbad := hg g m hglob hq
          simp [modelFromGlobal, hq, hbad]
    cases hq : jsTruthy (getVal "model" (loadConfig proj)) with
    | none => simp [getSelectedModel, hq, hmg]
    | some x =>
      have hx := hp x hq
      simp [getSelectedModel, hq, hx, hmg]

/-- Witness for C2: the environment wins when truthy; with every
source empty the credential is absent and the model is the default. -/
theorem C2_resolution_order_witness :
    getGroqApiKey (some "envkey") (.valid [("groqApiKey", "projkey")]) .missing =
      some "envkey" ∧
    getGroqApiKey none (.valid []) (.valid []) = none ∧
    getSelectedModel (.valid []) .missing = DEFAULT_MODEL :=
  ⟨(C2_resolution_order (some "envkey") (.valid [("groqApiKey", "projkey")]) .missing).1
      "envkey" rfl (by decide),
   (C2_resolution_order none (.valid []) (.valid [])).2.2.2.1 rfl rfl
      (by intro g hg; cases hg; rfl),
   (C2_resolution_order none (.valid []) .missing).2.2.2.2.2.2
      (by intro m hm; simp [loadConfig, getVal, jsTruthy] at hm)
      (by intro g m hg; exact FileState.noConfusion hg)⟩

/-- C3: message generation uses the staged diff together with the
staged status when the staged diff is non-blank, else the unstaged
diff and status; when both diffs are blank it fails with the
stage-first cause when untracked files are present and with the
nothing-to-analyze cause otherwise, and these causes are distinct
(also from the no-changes-in-repository cause raised when the
porcelain status is blank). -/
theorem C3_generation_algorithm (g : GitView)
    (ai : List Char → List Char → Option (List Char)) :
    (isBlank g.allChanges = true →
      generateAICommitMessage ai g = .aiGenerationFailed .noChangesInRepo) ∧
    (isBlank g.allChanges = false → isBlank g.stagedDiff = false →
      generateAICommitMessage ai g = runAIRequest ai g.stagedStatus g.stagedDiff) ∧
    (isBlank g.allChanges = false → isBlank g.stagedDiff = true →
      isBlank g.unstagedDiff = false →
      generateAICommitMessage ai g = runAIRequest ai g.unstagedStatus g.unstagedDiff) ∧
    (isBlank g.allChanges = false → isBlank g.stagedDiff = true →
      isBlank g.unstagedDiff = true → isBlank g.untracked = false →
      generateAICommitMessage ai g = .aiGenerationFailed .stageFirst) ∧
    (isBlank g.allChanges = false → isBlank g.stagedDiff = true →
      isBlank g.unstagedDiff = true → isBlank g.untracked = true →
      generateAICommitMessage ai g = .aiGenerationFailed .nothingToAnalyze) ∧
    (GenResult.aiGenerationFailed .stageFirst ≠
        GenResult.aiGenerationFailed .nothingToAnalyze ∧
      GenResult.aiGenerationFailed .stageFirst ≠
        GenResult.aiGenerationFailed .noChangesInRepo) := by
  refine ⟨?_, ?_, ?_, ?_, ?_, by decide⟩
  · intro h1
    simp [generateAICommitMessage, h1]
  · intro h1 h2
    simp [generateAICommitMessage, h1, h2]
  · intro h1 h2 h3
    simp [generateAICommitMessage, h1, h2, h3]
  · intro h1 h2 h3 h4
    simp [generateAICommitMessage, h1, h2, h3, h4]
  · intro h1 h2 h3 h4
    simp [generateAICommitMessage, h1, h2, h3, h4]

/-- Witness for C3 at a view with a staged diff and an oracle
answering a fixed message. -/
theorem C3_generation_algorithm_witness :
    generateAICommitMessage (fun _ _ => some "fix: a".toList)
      ⟨"M a".toList, "+x".toList, "M a".toList, [], [], []⟩ = .ok "fix: a".toList := by
  have h := (C3_generation_algorithm ⟨"M a".toList, "+x".toList, "M a".toList, [], [], []⟩
      (fun _ _ => some "fix: a".toList)).2.1 (by decide) (by decide)
  rw [h]
  decide

/-- C4: the push pipeline executes stage-all, commit, push in this
order; the first failing step is reported with its error and stops the
pipeline, while the commands already executed stay executed (no
rollback, no retry): the executed trace is exactly the sequence up to
and including the first failing command. -/
theorem C4_push_pipeline (env : PushEnv) (msg : List Char) (ob : Option (List Char))
    (hrepo : env.isRepo = true) (hch : env.hasChanges = true)
    (hmsg : msg.isEmpty = false) :
    (∀ e, env.stageErr = some e →
      pushAction env (some msg) ob false = ⟨[addCmd], [], .stageFailed e⟩) ∧
    (∀ e, env.stageErr = none → env.commitErr = some e →
      pushAction env (some msg) ob false =
        ⟨[addCmd, commitCmd (sanitizeCommitMessage msg)], [], .commitFailed e⟩) ∧
    (∀ e, env.stageErr = none → env.commitErr = none → env.pushErr = some e →
      pushAction env (some msg) ob false =
        ⟨[addCmd, commitCmd (sanitizeCommitMessage msg),
          pushCmd (resolveBranch ob env.currentBranch)], [], .pushFailed e⟩) ∧
    (env.stageErr = none → env.commitErr = none → env.pushErr = none →
      pushAction env (some msg) ob false =
        ⟨[addCmd, commitCmd (sanitizeCommitMessage msg),
          pushCmd (resolveBranch ob env.currentBranch)], [], .success⟩) := by
  refine ⟨?_, ?_, ?_, ?_⟩
  · intro e hs
    simp [pushAction, hrepo, hch, hmsg, hs]
  · intro e hs hcm
    simp [pushAction, hrepo, hch, hmsg, hs, hcm]
  · intro e hs hcm hp
    simp [pushAction, hrepo, hch, hmsg, hs, hcm, hp]
  · intro hs hcm hp
    simp [pushAction, hrepo, hch, hmsg, hs, hcm, hp]

/-- Witness for C4: with a failing commit, only stage and commit are
executed and the commit failure is reported with its error. -/
theorem C4_push_pipeline_witness :
    pushAction ⟨true, true, some "main".toList, none, some "boom".toList, none⟩
      (some "msg".toList) none false =
      ⟨[addCmd, commitCmd (sanitizeCommitMessage "msg".toList)], [],
        .commitFailed "boom".toList⟩ :=
  (C4_push_pipeline ⟨true, true, some "main".toList, none, some "boom".toList, none⟩
      "msg".toList none rfl rfl (by decide)).2.1 "boom".toList rfl rfl

/-- C7: with the dry-run flag the push action executes no command at
all, and the command sequence it prints is exactly the sequence the
same invocation would execute without the flag when every step
succeeds (stage-all, commit with the sanitized message, push to the
resolved branch). -/
theorem C7_dry_run (env : PushEnv) (msg : List Char) (ob : Option (List Char))
    (hrepo : env.isRepo = true) (hch : env.hasChanges = true)
    (hmsg : msg.isEmpty = false) :
    (pushAction env (some msg) ob true).executed = [] ∧
    (pushAction env (some msg) ob true).printed =
      (pushAction { env with stageErr := none, commitErr := none, pushErr := none }
        (some msg) ob false).executed := by
  constructor
  · simp [pushAction, hrepo, hch, hmsg]
  · simp [pushAction, hrepo, hch, hmsg]

/-- Witness for C7 at a concrete environment whose stage step would
fail, a concrete message and no branch option. -/
theorem C7_dry_run_witness :
    (pushAction ⟨true, true, some "dev".toList, some "e1".toList, none, none⟩
        (some "fix".toList) none true).executed = [] ∧
    (pushAction ⟨true, true, some "dev".toList, some "e1".toList, none, none⟩
        (some "fix".toList) none true).printed =
      (pushAction { (⟨true, true, some "dev".toList, some "e1".toList, none, none⟩ : PushEnv)
          with stageErr := none, commitErr := none, pushErr := none }
        (some "fix".toList) none false).executed :=
  C7_dry_run ⟨true, true, some "dev".toList, some "e1".toList, none, none⟩
    "fix".toList none rfl rfl (by decide)

/-- C5 counterexample: with a corrupt existing global file, setting the
global credential writes nothing at all — the parse inside the branch
throws, the catch reports a failure, and the whole state is unchanged —
so it is not true that every set operation writes the corresponding
file; afterwards the credential is still absent from the global file. -/
theorem C5_counterexample :
    configAction (.setGlobalKey "k1") true true true ⟨.missing, .corrupt, none⟩ =
      ⟨.missing, .corrupt, none⟩ ∧
    getVal "groqApiKey"
      (loadConfig (configAction (.setGlobalKey "k1") true true true
        ⟨.missing, .corrupt, none⟩).globFile) = none := by
  constructor
  · rfl
  · rfl

/-- C5 (amended): every configuration set operation with a truthy
argument (and, for the model setters, an identifier from the table)
whose underlying write succeeds writes the corresponding file with the
merged record, creating it when absent — except that a global set
operation aborts without writing when an existing global file fails to
parse — and every key other than the one being set keeps its value
(merge-on-write). -/
theorem C5_merge_on_write (st : ConfigState) :
    (∀ m, m ≠ "" → isAvailableModel m = true →
      (configAction (.setModel m) true true true st).projFile =
        .valid (setVal "model" m (loadConfig st.projFile)) ∧
      ∀ k2, k2 ≠ "model" →
        getVal k2 (setVal "model" m (loadConfig st.projFile)) =
          getVal k2 (loadConfig st.projFile)) ∧
    (∀ k, k ≠ "" →
      (configAction (.setKey k) true true true st).projFile =
        .valid (setVal "groqApiKey" k (loadConfig st.projFile)) ∧
      ∀ k2, k2 ≠ "groqApiKey" →
        getVal k2 (setVal "groqApiKey" k (loadConfig st.projFile)) =
          getVal k2 (loadConfig st.projFile)) ∧
    (∀ m g, m ≠ "" → isAvailableModel m = true →
      readGlobalForSet st.globFile = some g →
      (configAction (.setGlobalModel m) true true true st).globFile =
        .valid (setVal "model" m g) ∧
      ∀ k2, k2 ≠ "model" → getVal k2 (setVal "model" m g) = getVal k2 g) ∧
    (∀ k g, k ≠ "" → readGlobalForSet st.globFile = some g →
      (configAction (.setGlobalKey k) true true true st).globFile =
        .valid (setVal "groqApiKey" k g) ∧
      ∀ k2, k2 ≠ "groqApiKey" → getVal k2 (setVal "groqApiKey" k g) = getVal k2 g) := by
  refine ⟨?_, ?_, ?_, ?_⟩
  · intro m hm hav
    refine ⟨by simp [configAction, hm, hav, saveConfig], ?_⟩
    intro k2 hk2
    exact getVal_setVal_other "model" m k2 hk2 _
  · intro k hk
    refine ⟨by simp [configAction, hk, saveConfig], ?_⟩
    intro k2 hk2
    exact getVal_setVal_other "groqApiKey" k k2 hk2 _
  · intro m g hm hav hg
    refine ⟨by simp [configAction, hm, hav, hg], ?_⟩
    intro k2 hk2
    exact getVal_setVal_other "model" m k2 hk2 _
  · intro k g hk hg
    refine ⟨by simp [configAction, hk, hg], ?_⟩
    intro k2 hk2
    exact getVal_setVal_other "groqApiKey" k k2 hk2 _

/-- Witness for C5 (amended): setting the project credential over a
file holding a model keeps the model entry. -/
theorem C5_merge_on_write_witness :
    (configAction (.setKey "abc") true true true
      ⟨.valid [("model", "m1")], .missing, none⟩).projFile =
      .valid (setVal "groqApiKey" "abc" (loadConfig (.valid [("model", "m1")]))) ∧
    getVal "model" (setVal "groqApiKey" "abc" (loadConfig (.valid [("model", "m1")]))) =
      getVal "model" (loadConfig (.valid [("model", "m1")])) :=
  ⟨((C5_merge_on_write ⟨.valid [("model", "m1")], .missing, none⟩).2.1 "abc"
      (by decide)).1,
   ((C5_merge_on_write ⟨.valid [("model", "m1")], .missing, none⟩).2.1 "abc"
      (by decide)).2 "model" (by decide)⟩

/-- C6: a corrupt or unreadable configuration file is read as the
empty record by configuration resolution (both for the project file
and for the global file, for the credential and for the model); a
write failure makes `saveConfig` report failure to its caller and
change nothing; resetting an existing file replaces its content with
the empty record. -/
theorem C6_failure_semantics :
    (loadConfig .corrupt = [] ∧ loadConfig .missing = []) ∧
    (∀ env glob, getGroqApiKey env .corrupt glob = getGroqApiKey env (.valid []) glob) ∧
    (∀ env proj, getGroqApiKey env proj .corrupt = getGroqApiKey env proj (.valid [])) ∧
    (∀ glob, getSelectedModel .corrupt glob = getSelectedModel (.valid []) glob) ∧
    (∀ proj, getSelectedModel proj .corrupt = getSelectedModel proj (.valid [])) ∧
    (∀ cfg st giOk, saveConfig false giOk cfg st = (false, st)) ∧
    (∀ st gOk giOk, fileExists st.projFile = true →
      (configAction .reset true gOk giOk st).projFile = .valid []) ∧
    (∀ st pOk giOk, fileExists st.globFile = true →
      (configAction .resetGlobal pOk true giOk st).globFile = .valid []) := by
  refine ⟨⟨rfl, rfl⟩, ?_, ?_, ?_, ?_, ?_, ?_, ?_⟩
  · intro env glob
    rfl
  · intro env proj
    rfl
  · intro glob
    rfl
  · intro proj
    rfl
  · intro cfg st giOk
    rfl
  · intro st gOk giOk h
    simp [configAction, h]
  · intro st pOk giOk h
    simp [configAction, h]

/-- Witness for C6: resetting an existing project file empties it, and
a corrupt project file resolves like an empty one. -/
theorem C6_failure_semantics_witness :
    (configAction .reset true true true ⟨.valid [("a", "b")], .missing, none⟩).projFile =
      .valid [] ∧
    getGroqApiKey none .corrupt .missing = getGroqApiKey none (.valid []) .missing :=
  ⟨C6_failure_semantics.2.2.2.2.2.2.1 ⟨.valid [("a", "b")], .missing, none⟩ true true rfl,
   C6_failure_semantics.2.1 none .missing⟩

/-- C8: setting the project credential and then resolving the
effective configuration with no environment override returns exactly
the credential just set. -/
theorem C8_set_then_get (st : ConfigState) (k : String) (hk : k ≠ "") :
    getGroqApiKey none
      ((configAction (.setKey k) true true true st).projFile)
      ((configAction (.setKey k) true true true st).globFile) = some k := by
  have h1 : (configAction (.setKey k) true true true st).projFile =
      .valid (setVal "groqApiKey" k (loadConfig st.projFile)) := by
    simp [configAction, hk, saveConfig]
  rw [h1]
  simp [getGroqApiKey, loadConfig, getVal_setVal_same, jsTruthy, hk]

/-- Witness for C8 with the concrete credential secret over empty
state. -/
theorem C8_set_then_get_witness :
    getGroqApiKey none
      ((configAction (.setKey "secret") true true true ⟨.missing, .missing, none⟩).projFile)
      ((configAction (.setKey "secret") true true true ⟨.missing, .missing, none⟩).globFile) =
      some "secret" :=
  C8_set_then_get ⟨.missing, .missing, none⟩ "secret" (by decide)

theorem isAvailableModel_modelFromGlobal (glob : FileState) :
    isAvailableModel (modelFromGlobal glob) = true := by
  cases glob with
  | missing => decide
  | corrupt => decide
  | valid g =>
    cases hq : jsTruthy (getVal "model" g) with
    | none =>
      simp only [modelFromGlobal, hq]
      decide
    | some m =>
      by_cases hav : isAvailableModel m = true
      · simp [modelFromGlobal, hq, hav]
      · have hf : isAvailableModel m = false := Bool.eq_false_iff.mpr hav
        simp only [modelFromGlobal, hq, hf, if_false, Bool.false_eq_true]
        decide

/-- C9 counterexample: JavaScript property lookup traverses the
prototype chain, so `AVAILABLE_MODELS[m]` is truthy for the inherited
member name toString although it is not a key of the table: a stored
model toString is returned by resolution instead of being ignored, and
set-model accepts it and writes it to the file. -/
theorem C9_counterexample :
    getSelectedModel (.valid [("model", "toString")]) .missing = "toString" ∧
    (getVal "toString" AVAILABLE_MODELS).isSome = false ∧
    (configAction (.setModel "toString") true true true
      ⟨.missing, .missing, none⟩).projFile = .valid [("model", "toString")] := by
  decide

/-- C9 (amended): the effective model identifier always passes the
truthiness check of the table lookup, i.e. it is a key of the
hardcoded table or the name of a member inherited from
Object.prototype; a stored model that is neither is silently ignored
by resolution (project or global), falling through to the next source
or the default; and both set-model operations reject identifiers that
are neither, without writing anything. -/
theorem C9_model_invariant :
    (∀ proj glob, isAvailableModel (getSelectedModel proj glob) = true) ∧
    (∀ m glob x, getVal "model" m = some x → isAvailableModel x = false →
      getSelectedModel (.valid m) glob = getSelectedModel (.valid []) glob) ∧
    (∀ proj g x, getVal "model" g = some x → isAvailableModel x = false →
      getSelectedModel proj (.valid g) = getSelectedModel proj (.valid [])) ∧
    (∀ x st pOk gOk giOk, isAvailableModel x = false →
      configAction (.setModel x) pOk gOk giOk st = st ∧
      configAction (.setGlobalModel x) pOk gOk giOk st = st) := by
  refine ⟨?_, ?_, ?_, ?_⟩
  · intro proj glob
    cases hq : jsTruthy (getVal "model" (loadConfig proj)) with
    | none => simp [getSelectedModel, hq, isAvailableModel_modelFromGlobal]
    | some m =>
      by_cases hav : isAvailableModel m = true
      · simp [getSelectedModel, hq, hav]
      · have hf : isAvailableModel m = false := Bool.eq_false_iff.mpr hav
        simp [getSelectedModel, hq, hf, isAvailableModel_modelFromGlobal]
  · intro m glob x hx hav
    have hrhs : getSelectedModel (.valid []) glob = modelFromGlobal glob := rfl
    rw [hrhs]
    unfold getSelectedModel
    have hl : loadConfig (.valid m) = m := rfl
    rw [hl, hx]
    by_cases hxe : x = ""
    · simp [jsTruthy, hxe]
    · simp [jsTruthy, hxe, hav]
  · intro proj g x hx hav
    have hjt : jsTruthy (getVal "model" g) = if x = "" then none else some x := by
      rw [hx]; rfl
    have hmg : modelFromGlobal (.valid g) = modelFromGlobal (.valid []) := by
      have hr : modelFromGlobal (FileState.valid []) = DEFAULT_MODEL := rfl
      rw [hr]
      by_cases hxe : x = ""
      · have hn : jsTruthy (getVal "model" g) = none := by rw [hjt, if_pos hxe]
        simp [modelFromGlobal, hn]
      · have hn : jsTruthy (getVal "model" g) = some x := by rw [hjt, if_neg hxe]
        simp [modelFromGlobal, hn, hav]
    cases hq : jsTruthy (getVal "model" (loadConfig proj)) with
    | none => simp [getSelectedModel, hq, hmg]
    | some y =>
      by_cases hy : isAvailableModel y = true
      · simp [getSelectedModel, hq, hy]
      · have hf : isAvailableModel y = false := Bool.eq_false_iff.mpr hy
        simp [getSelectedModel, hq, hf, hmg]
  · intro x st pOk gOk giOk hav
    by_cases hxe : x = ""
    · constructor
      · simp [configAction, hxe]
      · simp [configAction, hxe]
    · constructor
      · simp [configAction, hxe, hav]
      · simp [configAction, hxe, hav]

/-- Witness for C9: a bogus stored project model is ignored, and
setting a bogus model changes nothing. -/
theorem C9_model_invariant_witness :
    getSelectedModel (.valid [("model", "bogus")]) .missing =
      getSelectedModel (.valid []) .missing ∧
    configAction (.setModel "bogus") true true true ⟨.missing, .missing, none⟩ =
      ⟨.missing, .missing, none⟩ :=
  ⟨C9_model_invariant.2.1 [("model", "bogus")] .missing "bogus" (by decide) (by decide),
   (C9_model_invariant.2.2.2 "bogus" ⟨.missing, .missing, none⟩ true true true (by decide)).1⟩

/-- C10 counterexample: the read/write inside `addToGitignore` can
fail, and that failure is caught silently (lines 102-105) while
`saveConfig` still returns `true`: a successful project configuration
write can leave .gitignore unchanged — here still absent — although
the configuration file name is not contained in it, so the claimed
side effect does not accompany every successful write. -/
theorem C10_counterexample :
    (saveConfig true false [] ⟨.missing, .missing, none⟩).1 = true ∧
    (saveConfig true false [] ⟨.missing, .missing, none⟩).2.gitignore = none ∧
    includesL configFileName
      ((⟨.missing, .missing, none⟩ : ConfigState).gitignore.getD []) = false := by
  decide

/-- C10 (amended): a successful project-scoped configuration write
(performed by `saveConfig`, which both project set operations use)
also attempts the .gitignore update, and whenever the gitignore access
succeeds: when the configuration file name is not yet contained there,
the name is appended as a final line, creating .gitignore when absent;
when it is already contained, .gitignore is left unchanged. When the
gitignore access fails, the failure is swallowed silently: .gitignore
stays unchanged and the configuration write still reports success. -/
theorem C10_gitignore_side_effect (st : ConfigState) (cfg : ConfigMap) :
    ((saveConfig true true cfg st).1 = true) ∧
    ((saveConfig true true cfg st).2.gitignore = some (addToGitignore st.gitignore)) ∧
    (∀ c, st.gitignore = some c → includesL configFileName c = true →
      (saveConfig true true cfg st).2.gitignore = st.gitignore) ∧
    (includesL configFileName (st.gitignore.getD []) = false →
      ∃ pad, (saveConfig true true cfg st).2.gitignore =
        some ((st.gitignore.getD []) ++ (pad ++ (configFileName ++ ['\n'])))) ∧
    ((saveConfig true false cfg st).1 = true ∧
      (saveConfig true false cfg st).2.gitignore = st.gitignore) ∧
    (∀ k, k ≠ "" → (configAction (.setKey k) true true true st).gitignore =
      some (addToGitignore st.gitignore)) ∧
    (∀ m, m ≠ "" → isAvailableModel m = true →
      (configAction (.setModel m) true true true st).gitignore =
        some (addToGitignore st.gitignore)) := by
  refine ⟨rfl, rfl, ?_, ?_, ⟨rfl, rfl⟩, ?_, ?_⟩
  · intro c hc hin
    simp [saveConfig, hc, addToGitignore, hin]
  · intro hin
    refine ⟨(if !(st.gitignore.getD []).isEmpty &&
        !((st.gitignore.getD []).getLast? == some '\n') then ['\n'] else []) ++
      (if includesL gitHelperMark (st.gitignore.getD []) then [] else gitignoreComment),
      ?_⟩
    simp [saveConfig, addToGitignore, hin, List.append_assoc]
  · intro k hk
    simp [configAction, hk, saveConfig]
  · intro m hm hav
    simp [configAction, hm, hav, saveConfig]

/-- Witness for C10 (amended): the first successful write with a
working gitignore access and no .gitignore creates one ending in the
configuration file name. -/
theorem C10_gitignore_side_effect_witness :
    ((saveConfig true true [] ⟨.missing, .missing, none⟩).1 = true) ∧
    (∃ pad, (saveConfig true true [] ⟨.missing, .missing, none⟩).2.gitignore =
      some (((⟨.missing, .missing, none⟩ : ConfigState).gitignore.getD []) ++
        (pad ++ (configFileName ++ ['\n'])))) :=
  ⟨(C10_gitignore_side_effect ⟨.missing, .missing, none⟩ []).1,
   (C10_gitignore_side_effect ⟨.missing, .missing, none⟩ []).2.2.2.1 (by decide)⟩
